import Mathlib

/-!
Verification of the debug-interface log tail
(`testsuite/cluster_test/src/health/debug_interface_log_tail.rs`).

The Rust code is embedded shallowly:
* `serde_json::Value` becomes the inductive `Json` (numbers carried as `Int`);
* panics (`expect`) become `Except.error` carrying the panic message;
* the external JSON parser `serde_json::from_str`, the wall clock
  `unix_timestamp_now`, the gRPC connect and the thread spawner are passed
  in as explicit parameters, since they are library code outside this
  repository;
* `u64` casts are modelled with `Int` and explicit `% 2 ^ 64`.
-/

/-- A JSON value, mirroring `serde_json::value::Value` as used by the
decoder (numbers carried as mathematical integers). -/
inductive Json where
  | null
  | bool (b : Bool)
  | num (n : Int)
  | str (s : String)
  | arr (xs : List Json)
  | obj (fields : List (String × Json))

/-- `Value::get(key)` — field lookup, `none` on non-objects. -/
def Json.get (j : Json) (key : String) : Option Json :=
  match j with
  | .obj fields => (fields.find? (fun kv => kv.1 == key)).map (fun kv => kv.2)
  | _ => none

/-- `Value::as_str` — `some` exactly on strings. -/
def Json.as_str : Json → Option String
  | .str s => some s
  | _ => none

/-- `Value::as_u64` — `some` exactly on integers representable as `u64`. -/
def Json.as_u64 : Json → Option Nat
  | .num n => if 0 ≤ n ∧ n < 2 ^ 64 then some n.toNat else none
  | _ => none

/-- `std::time::Duration`, reduced to its nanosecond count. -/
structure Duration where
  nanos : Nat
deriving Repr, DecidableEq

/-- `Duration::from_millis`. -/
def Duration.from_millis (ms : Nat) : Duration :=
  ⟨ms * 1000000⟩

/-- One raw event from the node debug interface
(`node_debug_interface::Event`): a name, an `i64` timestamp and a
JSON-encoded payload string. -/
structure DebugInterfaceEvent where
  name : String
  timestamp : Int
  json : String
deriving Repr, DecidableEq

/-- `health::Commit` — the decoded commit event. -/
structure Commit where
  commit : String
  round : Nat
  parent : String
deriving Repr, DecidableEq

/-- `health::Event` — the tagged union of decoded events. -/
inductive Event where
  | Commit (c : Commit)
deriving Repr, DecidableEq

/-- `health::ValidatorEvent` — the envelope sent through the channel. -/
structure ValidatorEvent where
  validator : String
  timestamp : Duration
  received_timestamp : Duration
  event : Event
deriving Repr, DecidableEq

/-- A node descriptor (`instance::Instance`), reduced to the two pieces
the log tail uses: its IP and its short hash. -/
structure Instance where
  ip : String
  short_hash : String
deriving Repr, DecidableEq

/-- `cluster::Cluster`, reduced to its instance list. -/
structure Cluster where
  instances : List Instance
deriving Repr, DecidableEq

/-- `Option::expect`: unwrap or abort with the given panic message. -/
def expect (o : Option α) (msg : String) : Except String α :=
  match o with
  | some a => .ok a
  | none => .error msg

/-- `DebugPortLogThread::parse_commit`: decode the three required fields
of a `committed` payload, aborting with the source's panic message on a
missing field or a type mismatch. -/
def parse_commit (json : Json) : Except String Event := do
  let commit ← expect (← expect (json.get "block_id")
      "No block_id in commit event").as_str "block_id is not string"
  let round ← expect (← expect (json.get "round")
      "No round in commit event").as_u64 "round is not u64"
  let parent ← expect (← expect (json.get "parent_id")
      "No parent_id in commit event").as_str "parent_id is not string"
  pure (Event.Commit { commit := commit, round := round, parent := parent })

/-- `DebugPortLogThread::parse_event`: parse the payload as JSON (a parse
failure panics), dispatch on the event name (`"committed"` decodes as a
commit, anything else returns `none`), and wrap the result in a
`ValidatorEvent`.  `fromStr` stands for `serde_json::from_str` and `now`
for `unix_timestamp_now()`; `event.get_timestamp() as u64` is the `i64`
value reduced modulo `2 ^ 64`. -/
def parse_event (fromStr : String → Option Json) (now : Duration)
    (inst : Instance) (event : DebugInterfaceEvent) :
    Except String (Option ValidatorEvent) := do
  let json ← expect (fromStr event.json) "Failed to parse json from debug interface"
  if event.name = "committed" then
    let e ← parse_commit json
    pure (some { validator := inst.short_hash
               , timestamp := Duration.from_millis (event.timestamp % 2 ^ 64).toNat
               , received_timestamp := now
               , event := e })
  else
    pure none

/-- A gRPC client handle (`NodeDebugInterfaceClient`), reduced to the
address string it was connected to. -/
structure Client where
  addr : String
deriving Repr, DecidableEq

/-- One poller (`DebugPortLogThread`): the node it watches and its
client handle.  (The channel sender is modelled at the call sites.) -/
structure DebugPortLogThread where
  inst : Instance
  client : Client
deriving Repr, DecidableEq

/-- `health::LogTail`, reduced to the pending-message counter this code
allocates (the receiver end of the channel carries no data at
construction time). -/
structure LogTail where
  pending_messages : Int
deriving Repr, DecidableEq

/-- The `Ok(resp)` body of one iteration of `DebugPortLogThread::run`:
decode each raw event in order; each decoded event is sent into the
channel with the send result discarded (`let _ignore = ...send(e)`); a
decode panic aborts the whole poller.  The returned list is the sequence
of events sent into the channel, in send order. -/
def run_one_poll (fromStr : String → Option Json) (now : Duration)
    (inst : Instance) (send : ValidatorEvent → Bool) :
    List DebugInterfaceEvent → Except String (List ValidatorEvent)
  | [] => .ok []
  | event :: rest => do
    match ← parse_event fromStr now inst event with
    | some e =>
      let _ignore := send e
      let sent ← run_one_poll fromStr now inst send rest
      pure (e :: sent)
    | none => run_one_poll fromStr now inst send rest

/-- The observable outcome of one full iteration of the `run` loop:
what was printed for a transport failure, what was sent into the
channel, and how long the poller then sleeps. -/
structure IterOutcome where
  printed : List String
  sent : List ValidatorEvent
  sleep_millis : Nat
deriving Repr, DecidableEq

/-- The response of one `get_events_opt` call: a transport error or a
list of raw events. -/
inductive PollResult where
  | err (e : String)
  | ok (events : List DebugInterfaceEvent)

/-- One iteration of the loop in `DebugPortLogThread::run`.  `env`
stands for `std::env::var`, read for the key `VERBOSE`
(`print_failures = env::var("VERBOSE").is_ok()`).  On a transport error
the failure is printed only when `print_failures` holds and the poller
sleeps one second; on success the events are decoded and forwarded and
the poller sleeps 200 ms. -/
def poll_iteration (env : String → Option String)
    (fromStr : String → Option Json) (now : Duration) (inst : Instance)
    (send : ValidatorEvent → Bool) (resp : PollResult) :
    Except String IterOutcome :=
  let print_failures := (env "VERBOSE").isSome
  match resp with
  | .err e =>
    .ok { printed := if print_failures
            then ["Failed to get events from " ++ inst.short_hash ++ ": " ++ e]
            else []
        , sent := []
        , sleep_millis := 1000 }
  | .ok events => do
    let sent ← run_one_poll fromStr now inst send events
    pure { printed := [], sent := sent, sleep_millis := 200 }

/-- The loop body of `DebugPortLogThread::spawn_new`: for each instance
connect a client to `ip:6191`, build the poller and spawn its thread
named `log-tail-<short hash>`; a spawn failure panics with the source's
message.  `connect` stands for `ChannelBuilder::connect` (which hands
back a channel unconditionally — gRPC channels connect lazily) and
`spawnOk` tells whether `thread::Builder::spawn` succeeds for a given
thread name. -/
def spawn_pollers (connect : String → Client) (spawnOk : String → Bool) :
    List Instance → Except String (List DebugPortLogThread)
  | [] => .ok []
  | inst :: rest =>
    let ch := connect (inst.ip ++ ":6191")
    let client := ch
    let t : DebugPortLogThread := { inst := inst, client := client }
    if spawnOk ("log-tail-" ++ inst.short_hash) then do
      let ts ← spawn_pollers connect spawnOk rest
      pure (t :: ts)
    else
      .error "Failed to spawn log tail thread"

/-- `DebugPortLogThread::spawn_new`: spawn one poller per cluster
instance, then return the `LogTail` handle with its pending counter
freshly allocated at zero.  The spawned pollers are returned alongside
the handle so the wiring is observable. -/
def spawn_new (connect : String → Client) (spawnOk : String → Bool)
    (cluster : Cluster) : Except String (LogTail × List DebugPortLogThread) := do
  let pollers ← spawn_pollers connect spawnOk cluster.instances
  pure ({ pending_messages := 0 }, pollers)

/-- The envelope `parse_event` builds around a decoded event. -/
def mk_envelope (now : Duration) (inst : Instance)
    (event : DebugInterfaceEvent) (e : Event) : ValidatorEvent :=
  { validator := inst.short_hash
  , timestamp := Duration.from_millis (event.timestamp % 2 ^ 64).toNat
  , received_timestamp := now
  , event := e }

/-- What one raw event contributes to the channel when no decode panic
occurs: the `some`/`none` payload of a successful `parse_event`. -/
def decoded (fromStr : String → Option Json) (now : Duration) (inst : Instance)
    (ev : DebugInterfaceEvent) : Option ValidatorEvent :=
  match parse_event fromStr now inst ev with
  | .ok o => o
  | .error _ => none

theorem expect_some (a : α) (msg : String) : expect (some a) msg = .ok a := rfl

theorem expect_none (msg : String) : expect (none : Option α) msg = .error msg := rfl

theorem exc_ok_bind (a : α) (f : α → Except ε β) :
    (Except.ok a : Except ε α) >>= f = f a := rfl

theorem exc_error_bind (e : ε) (f : α → Except ε β) :
    (Except.error e : Except ε α) >>= f = Except.error e := rfl

theorem parse_commit_of_fields (j : Json) (b : String) (r : Nat) (p : String)
    (hb : (j.get "block_id").bind Json.as_str = some b)
    (hr : (j.get "round").bind Json.as_u64 = some r)
    (hp : (j.get "parent_id").bind Json.as_str = some p) :
    parse_commit j = .ok (Event.Commit ⟨b, r, p⟩) := by
  rcases Option.bind_eq_some.mp hb with ⟨jb, hjb, hb2⟩
  rcases Option.bind_eq_some.mp hr with ⟨jr, hjr, hr2⟩
  rcases Option.bind_eq_some.mp hp with ⟨jp, hjp, hp2⟩
  simp [parse_commit, hjb, hb2, hjr, hr2, hjp, hp2, expect_some, exc_ok_bind]

theorem parse_commit_ok_iff (j : Json) (e : Event) :
    parse_commit j = .ok e ↔
      ∃ b r p, (j.get "block_id").bind Json.as_str = some b ∧
        (j.get "round").bind Json.as_u64 = some r ∧
        (j.get "parent_id").bind Json.as_str = some p ∧
        e = Event.Commit ⟨b, r, p⟩ := by
  constructor
  · intro h
    cases hjb : j.get "block_id" with
    | none => simp [parse_commit, hjb, expect_none, exc_error_bind] at h
    | some jb =>
      cases hb : jb.as_str with
      | none =>
        simp [parse_commit, hjb, hb, expect_some, expect_none,
          exc_ok_bind, exc_error_bind] at h
      | some b =>
        cases hjr : j.get "round" with
        | none =>
          simp [parse_commit, hjb, hb, hjr, expect_some, expect_none,
            exc_ok_bind, exc_error_bind] at h
        | some jr =>
          cases hr : jr.as_u64 with
          | none =>
            simp [parse_commit, hjb, hb, hjr, hr, expect_some, expect_none,
              exc_ok_bind, exc_error_bind] at h
          | some r =>
            cases hjp : j.get "parent_id" with
            | none =>
              simp [parse_commit, hjb, hb, hjr, hr, hjp, expect_some, expect_none,
                exc_ok_bind, exc_error_bind] at h
            | some jp =>
              cases hp : jp.as_str with
              | none =>
                simp [parse_commit, hjb, hb, hjr, hr, hjp, hp, expect_some,
                  expect_none, exc_ok_bind, exc_error_bind] at h
              | some p =>
                have h2 : parse_commit j = .ok (Event.Commit ⟨b, r, p⟩) :=
                  parse_commit_of_fields j b r p (by simp [hjb, hb])
                    (by simp [hjr, hr]) (by simp [hjp, hp])
                rw [h2] at h
                exact ⟨b, r, p, by simp [hjb, hb], by simp [hjr, hr],
                  by simp [hjp, hp], (Except.ok.inj h).symm⟩
  · rintro ⟨b, r, p, hb, hr, hp, rfl⟩
    exact parse_commit_of_fields j b r p hb hr hp

theorem parse_event_committed (fromStr : String → Option Json) (now : Duration)
    (inst : Instance) (ev : DebugInterfaceEvent) (j : Json)
    (hname : ev.name = "committed") (hj : fromStr ev.json = some j) :
    parse_event fromStr now inst ev =
      (fun e => some (mk_envelope now inst ev e)) <$> parse_commit j := by
  simp [parse_event, hj, hname, expect_some, exc_ok_bind, mk_envelope]

theorem parse_event_ok_some (fromStr : String → Option Json) (now : Duration)
    (inst : Instance) (ev : DebugInterfaceEvent) (e : ValidatorEvent)
    (h : parse_event fromStr now inst ev = .ok (some e)) :
    ev.name = "committed" ∧
      ∃ j, fromStr ev.json = some j ∧ parse_commit j = .ok e.event ∧
        e = mk_envelope now inst ev e.event := by
  cases hj : fromStr ev.json with
  | none => simp [parse_event, hj, expect_none, exc_error_bind] at h
  | some j =>
    by_cases hname : ev.name = "committed"
    · rw [parse_event_committed fromStr now inst ev j hname hj] at h
      cases hpc : parse_commit j with
      | error msg => rw [hpc] at h; simp at h
      | ok ec =>
        rw [hpc] at h
        simp only [Except.map_ok, Except.ok.injEq, Option.some.injEq] at h
        subst h
        exact ⟨hname, j, rfl, by simp [hpc, mk_envelope], by simp [mk_envelope]⟩
    · simp [parse_event, hj, hname, expect_some, exc_ok_bind] at h

theorem run_cons_some (fromStr : String → Option Json) (now : Duration)
    (inst : Instance) (send : ValidatorEvent → Bool) (ev : DebugInterfaceEvent)
    (rest : List DebugInterfaceEvent) (e : ValidatorEvent)
    (h : parse_event fromStr now inst ev = .ok (some e)) :
    run_one_poll fromStr now inst send (ev :: rest) =
      (fun l => e :: l) <$> run_one_poll fromStr now inst send rest := by
  cases hr : run_one_poll fromStr now inst send rest with
  | ok l => simp [run_one_poll, h, exc_ok_bind, hr]
  | error m => simp [run_one_poll, h, exc_ok_bind, hr]

theorem run_cons_none (fromStr : String → Option Json) (now : Duration)
    (inst : Instance) (send : ValidatorEvent → Bool) (ev : DebugInterfaceEvent)
    (rest : List DebugInterfaceEvent)
    (h : parse_event fromStr now inst ev = .ok none) :
    run_one_poll fromStr now inst send (ev :: rest) =
      run_one_poll fromStr now inst send rest := by
  simp [run_one_poll, h, exc_ok_bind]

theorem run_cons_error (fromStr : String → Option Json) (now : Duration)
    (inst : Instance) (send : ValidatorEvent → Bool) (ev : DebugInterfaceEvent)
    (rest : List DebugInterfaceEvent) (m : String)
    (h : parse_event fromStr now inst ev = .error m) :
    run_one_poll fromStr now inst send (ev :: rest) = .error m := by
  simp [run_one_poll, h, exc_error_bind]

theorem run_ok_mem (fromStr : String → Option Json) (now : Duration)
    (inst : Instance) (send : ValidatorEvent → Bool)
    (events : List DebugInterfaceEvent) :
    ∀ sent : List ValidatorEvent,
      run_one_poll fromStr now inst send events = .ok sent →
      ∀ e ∈ sent, ∃ ev ∈ events, parse_event fromStr now inst ev = .ok (some e) := by
  induction events with
  | nil =>
    intro sent h e he
    simp only [run_one_poll, Except.ok.injEq] at h
    subst h
    simp at he
  | cons ev rest ih =>
    intro sent h e he
    cases hpe : parse_event fromStr now inst ev with
    | error m => rw [run_cons_error fromStr now inst send ev rest m hpe] at h; cases h
    | ok o =>
      cases o with
      | none =>
        rw [run_cons_none fromStr now inst send ev rest hpe] at h
        rcases ih sent h e he with ⟨ev2, hmem, hp2⟩
        exact ⟨ev2, List.mem_cons_of_mem _ hmem, hp2⟩
      | some e0 =>
        rw [run_cons_some fromStr now inst send ev rest e0 hpe] at h
        cases hr : run_one_poll fromStr now inst send rest with
        | error m => rw [hr] at h; cases h
        | ok l =>
          rw [hr] at h
          simp only [Except.map_ok, Except.ok.injEq] at h
          subst h
          rcases List.mem_cons.mp he with rfl | hm
          · exact ⟨ev, List.mem_cons_self ev rest, hpe⟩
          · rcases ih l hr e hm with ⟨ev2, hmem, hp2⟩
            exact ⟨ev2, List.mem_cons_of_mem _ hmem, hp2⟩

theorem exc_pure (a : α) : (pure a : Except ε α) = .ok a := rfl

theorem spawn_pollers_cases (connect : String → Client) (spawnOk : String → Bool)
    (insts : List Instance) :
    spawn_pollers connect spawnOk insts = .error "Failed to spawn log tail thread" ∨
      ∃ ps, spawn_pollers connect spawnOk insts = .ok ps ∧
        ps.map DebugPortLogThread.inst = insts ∧
        ∀ t ∈ ps, t.client = connect (t.inst.ip ++ ":6191") := by
  induction insts with
  | nil => right; exact ⟨[], rfl, rfl, by simp⟩
  | cons inst rest ih =>
    by_cases hs : spawnOk ("log-tail-" ++ inst.short_hash) = true
    · rcases ih with h | ⟨ps, hps, hmap, hcl⟩
      · left
        simp [spawn_pollers, hs, h, exc_error_bind]
      · right
        refine ⟨⟨inst, connect (inst.ip ++ ":6191")⟩ :: ps, ?_, ?_, ?_⟩
        · simp [spawn_pollers, hs, hps, exc_ok_bind, exc_pure]
        · simp [hmap]
        · intro t ht
          rcases List.mem_cons.mp ht with rfl | hm
          · rfl
          · exact hcl t hm
    · left
      simp [spawn_pollers, hs]

/-- C1: a raw event named `"committed"` whose JSON payload carries a
string `block_id`, a `u64` `round` and a string `parent_id` decodes to
`Some(ValidatorEvent)` whose `Commit` fields are exactly those values,
whose validator is the owning node's short hash, and whose timestamp is
the raw event's reported timestamp in milliseconds. -/
theorem decode_commit_correct (fromStr : String → Option Json) (now : Duration)
    (inst : Instance) (ev : DebugInterfaceEvent) (j : Json)
    (b : String) (r : Nat) (p : String)
    (hname : ev.name = "committed") (hj : fromStr ev.json = some j)
    (hb : (j.get "block_id").bind Json.as_str = some b)
    (hr : (j.get "round").bind Json.as_u64 = some r)
    (hp : (j.get "parent_id").bind Json.as_str = some p)
    (hts0 : 0 ≤ ev.timestamp) (hts1 : ev.timestamp < 2 ^ 63) :
    parse_event fromStr now inst ev =
      .ok (some { validator := inst.short_hash
                , timestamp := Duration.from_millis ev.timestamp.toNat
                , received_timestamp := now
                , event := Event.Commit ⟨b, r, p⟩ }) := by
  rw [parse_event_committed fromStr now inst ev j hname hj,
    parse_commit_of_fields j b r p hb hr hp]
  have hlt : ev.timestamp < 2 ^ 64 := by
    have h2 : (2 : Int) ^ 63 < 2 ^ 64 := by norm_num
    exact lt_trans hts1 h2
  have hmod : ev.timestamp % 18446744073709551616 = ev.timestamp := by
    have he : (18446744073709551616 : Int) = 2 ^ 64 := by norm_num
    rw [he]
    exact Int.emod_eq_of_lt hts0 hlt
  simp [mk_envelope, hmod]

/-- C1 witness: the spec's example scenario, decoded concretely. -/
theorem decode_commit_correct_witness :
    parse_event
      (fun _ => some (Json.obj [("block_id", Json.str "abc"), ("round", Json.num 5),
        ("parent_id", Json.str "xyz")]))
      ⟨7⟩ ⟨"10.0.0.1", "node-1"⟩ ⟨"committed", 1000, "payload"⟩ =
      .ok (some { validator := "node-1"
                , timestamp := Duration.from_millis 1000
                , received_timestamp := ⟨7⟩
                , event := Event.Commit ⟨"abc", 5, "xyz"⟩ }) :=
  decode_commit_correct
    (fun _ => some (Json.obj [("block_id", Json.str "abc"), ("round", Json.num 5),
      ("parent_id", Json.str "xyz")]))
    ⟨7⟩ ⟨"10.0.0.1", "node-1"⟩ ⟨"committed", 1000, "payload"⟩
    (Json.obj [("block_id", Json.str "abc"), ("round", Json.num 5),
      ("parent_id", Json.str "xyz")])
    "abc" 5 "xyz" rfl rfl (by decide) (by decide) (by decide) (by decide) (by decide)

/-- C3: a `committed` raw event whose payload misses `block_id`, `round`
or `parent_id`, or types one of them wrongly, makes decoding abort with
a diagnostic (`Except.error`): no default value and no partial event is
ever produced. -/
theorem commit_missing_field_aborts (fromStr : String → Option Json)
    (now : Duration) (inst : Instance) (ev : DebugInterfaceEvent) (j : Json)
    (hname : ev.name = "committed") (hj : fromStr ev.json = some j)
    (hbad : (j.get "block_id").bind Json.as_str = none ∨
      (j.get "round").bind Json.as_u64 = none ∨
      (j.get "parent_id").bind Json.as_str = none) :
    ∃ msg, parse_commit j = .error msg ∧
      parse_event fromStr now inst ev = .error msg := by
  cases hpc : parse_commit j with
  | error msg =>
    refine ⟨msg, rfl, ?_⟩
    rw [parse_event_committed fromStr now inst ev j hname hj, hpc]
    simp
  | ok e =>
    exfalso
    rcases (parse_commit_ok_iff j e).mp hpc with ⟨b, r, p, hb, hr, hp, _⟩
    rcases hbad with h | h | h
    · rw [h] at hb; simp at hb
    · rw [h] at hr; simp at hr
    · rw [h] at hp; simp at hp

/-- C3 witness: a `committed` event whose `round` is a string aborts
with the source's panic message. -/
theorem commit_missing_field_aborts_witness :
    ∃ msg, parse_commit (Json.obj [("block_id", Json.str "abc"),
        ("round", Json.str "5"), ("parent_id", Json.str "xyz")]) = .error msg ∧
      parse_event
        (fun _ => some (Json.obj [("block_id", Json.str "abc"),
          ("round", Json.str "5"), ("parent_id", Json.str "xyz")]))
        ⟨7⟩ ⟨"10.0.0.1", "node-1"⟩ ⟨"committed", 1000, "payload"⟩ = .error msg :=
  commit_missing_field_aborts
    (fun _ => some (Json.obj [("block_id", Json.str "abc"),
      ("round", Json.str "5"), ("parent_id", Json.str "xyz")]))
    ⟨7⟩ ⟨"10.0.0.1", "node-1"⟩ ⟨"committed", 1000, "payload"⟩
    (Json.obj [("block_id", Json.str "abc"), ("round", Json.str "5"),
      ("parent_id", Json.str "xyz")])
    rfl rfl (by right; left; decide)

/-- C4: whatever the event's name, if its payload string does not parse
as JSON, `parse_event` aborts with the source's panic message, and any
poll iteration whose response contains such an event aborts the whole
poller. -/
theorem invalid_json_aborts_poller (fromStr : String → Option Json)
    (now : Duration) (inst : Instance) (send : ValidatorEvent → Bool)
    (ev : DebugInterfaceEvent) (hj : fromStr ev.json = none) :
    parse_event fromStr now inst ev =
        .error "Failed to parse json from debug interface" ∧
      ∀ events : List DebugInterfaceEvent, ev ∈ events →
        ∃ msg, run_one_poll fromStr now inst send events = .error msg := by
  have hpe : parse_event fromStr now inst ev =
      .error "Failed to parse json from debug interface" := by
    simp [parse_event, hj, expect_none, exc_error_bind]
  refine ⟨hpe, ?_⟩
  intro events
  induction events with
  | nil => intro hmem; cases hmem
  | cons e0 rest ih =>
    intro hmem
    rcases List.mem_cons.mp hmem with rfl | hm
    · exact ⟨_, run_cons_error fromStr now inst send _ rest _ hpe⟩
    · cases hpe0 : parse_event fromStr now inst e0 with
      | error m => exact ⟨m, run_cons_error fromStr now inst send e0 rest m hpe0⟩
      | ok o =>
        rcases ih hm with ⟨msg, hrun⟩
        cases o with
        | none =>
          exact ⟨msg, by rw [run_cons_none fromStr now inst send e0 rest hpe0]; exact hrun⟩
        | some e1 =>
          refine ⟨msg, ?_⟩
          rw [run_cons_some fromStr now inst send e0 rest e1 hpe0, hrun]
          simp

/-- C4 witness: an unparseable payload aborts both the decode and a poll
iteration containing it. -/
theorem invalid_json_aborts_poller_witness :
    parse_event (fun _ => none) ⟨7⟩ ⟨"10.0.0.1", "node-1"⟩
        ⟨"heartbeat", 1000, "not json"⟩ =
        .error "Failed to parse json from debug interface" ∧
      ∀ events : List DebugInterfaceEvent,
        ⟨"heartbeat", 1000, "not json"⟩ ∈ events →
        ∃ msg, run_one_poll (fun _ => none) ⟨7⟩ ⟨"10.0.0.1", "node-1"⟩
          (fun _ => true) events = .error msg :=
  invalid_json_aborts_poller (fun _ => none) ⟨7⟩ ⟨"10.0.0.1", "node-1"⟩
    (fun _ => true) ⟨"heartbeat", 1000, "not json"⟩ rfl

/-- C5: a raw event whose name is not `"committed"` (and whose payload
parses) is soft-skipped: `parse_event` returns `none` and the event
contributes nothing to the channel. -/
theorem unknown_event_skipped (fromStr : String → Option Json) (now : Duration)
    (inst : Instance) (send : ValidatorEvent → Bool) (ev : DebugInterfaceEvent)
    (j : Json) (rest : List DebugInterfaceEvent)
    (hname : ev.name ≠ "committed") (hj : fromStr ev.json = some j) :
    parse_event fromStr now inst ev = .ok none ∧
      run_one_poll fromStr now inst send (ev :: rest) =
        run_one_poll fromStr now inst send rest := by
  have hpe : parse_event fromStr now inst ev = .ok none := by
    simp [parse_event, hj, hname, expect_some, exc_ok_bind]
  exact ⟨hpe, run_cons_none fromStr now inst send ev rest hpe⟩

/-- C5 witness: a `heartbeat` event decodes to `none` and adds nothing
to the channel. -/
theorem unknown_event_skipped_witness :
    parse_event (fun _ => some (Json.obj [])) ⟨7⟩ ⟨"10.0.0.1", "node-1"⟩
        ⟨"heartbeat", 1000, "payload"⟩ = .ok none ∧
      run_one_poll (fun _ => some (Json.obj [])) ⟨7⟩ ⟨"10.0.0.1", "node-1"⟩
          (fun _ => true) [⟨"heartbeat", 1000, "payload"⟩] =
        run_one_poll (fun _ => some (Json.obj [])) ⟨7⟩ ⟨"10.0.0.1", "node-1"⟩
          (fun _ => true) [] :=
  unknown_event_skipped (fun _ => some (Json.obj [])) ⟨7⟩ ⟨"10.0.0.1", "node-1"⟩
    (fun _ => true) ⟨"heartbeat", 1000, "payload"⟩ (Json.obj []) []
    (by decide) rfl

/-- C7: when every raw event of one successful poll response decodes
without a panic, the poller sends into the channel exactly the events
`parse_event` turns into `some`, in response order, and the outcome does
not depend on whether the channel sends succeed (the send result is
discarded, never retried). -/
theorem poll_sends_decoded_in_order (fromStr : String → Option Json)
    (now : Duration) (inst : Instance) (send : ValidatorEvent → Bool)
    (events : List DebugInterfaceEvent)
    (h : ∀ ev ∈ events, ∃ o, parse_event fromStr now inst ev = .ok o) :
    run_one_poll fromStr now inst send events =
      .ok (events.filterMap (decoded fromStr now inst)) := by
  induction events with
  | nil => simp [run_one_poll]
  | cons ev rest ih =>
    have hrest : ∀ e ∈ rest, ∃ o, parse_event fromStr now inst e = .ok o :=
      fun e he => h e (List.mem_cons_of_mem _ he)
    rcases h ev (List.mem_cons_self ev rest) with ⟨o, hpe⟩
    cases o with
    | some e =>
      rw [run_cons_some fromStr now inst send ev rest e hpe, ih hrest]
      simp [List.filterMap_cons, decoded, hpe]
    | none =>
      rw [run_cons_none fromStr now inst send ev rest hpe, ih hrest]
      simp [List.filterMap_cons, decoded, hpe]

/-- C7 witness: a response with one commit, one heartbeat and a second
commit yields exactly the two decoded commits, in order. -/
theorem poll_sends_decoded_in_order_witness :
    run_one_poll
      (fun s => if s = "c1"
        then some (Json.obj [("block_id", Json.str "a"), ("round", Json.num 1),
          ("parent_id", Json.str "z")])
        else if s = "c2"
        then some (Json.obj [("block_id", Json.str "b"), ("round", Json.num 2),
          ("parent_id", Json.str "a")])
        else some (Json.obj []))
      ⟨7⟩ ⟨"10.0.0.1", "node-1"⟩ (fun _ => true)
      [⟨"committed", 10, "c1"⟩, ⟨"heartbeat", 11, "x"⟩, ⟨"committed", 12, "c2"⟩] =
      .ok [⟨"node-1", Duration.from_millis 10, ⟨7⟩, .Commit ⟨"a", 1, "z"⟩⟩,
        ⟨"node-1", Duration.from_millis 12, ⟨7⟩, .Commit ⟨"b", 2, "a"⟩⟩] := by
  have h := poll_sends_decoded_in_order
    (fun s => if s = "c1"
      then some (Json.obj [("block_id", Json.str "a"), ("round", Json.num 1),
        ("parent_id", Json.str "z")])
      else if s = "c2"
      then some (Json.obj [("block_id", Json.str "b"), ("round", Json.num 2),
        ("parent_id", Json.str "a")])
      else some (Json.obj []))
    ⟨7⟩ ⟨"10.0.0.1", "node-1"⟩ (fun _ => true)
    [⟨"committed", 10, "c1"⟩, ⟨"heartbeat", 11, "x"⟩, ⟨"committed", 12, "c2"⟩]
    (by
      intro ev hmem
      simp only [List.mem_cons, List.not_mem_nil, or_false] at hmem
      rcases hmem with rfl | rfl | rfl
      · exact ⟨_, rfl⟩
      · exact ⟨_, rfl⟩
      · exact ⟨_, rfl⟩)
  rw [h]
  rfl

/-- C2: every event the poller places on the channel in a successful
iteration comes from a raw event on which `parse_event` succeeded with
`some`, whose name is `"committed"` and whose payload carried all three
well-typed commit fields; malformed or unrecognized raw events never
produce a channel entry. -/
theorem channel_events_decode_succeeded (fromStr : String → Option Json)
    (now : Duration) (inst : Instance) (send : ValidatorEvent → Bool)
    (events : List DebugInterfaceEvent) (sent : List ValidatorEvent)
    (e : ValidatorEvent)
    (hrun : run_one_poll fromStr now inst send events = .ok sent)
    (he : e ∈ sent) :
    ∃ ev ∈ events, parse_event fromStr now inst ev = .ok (some e) ∧
      ev.name = "committed" ∧
      ∃ j c, fromStr ev.json = some j ∧ e.event = Event.Commit c ∧
        (j.get "block_id").bind Json.as_str = some c.commit ∧
        (j.get "round").bind Json.as_u64 = some c.round ∧
        (j.get "parent_id").bind Json.as_str = some c.parent := by
  rcases run_ok_mem fromStr now inst send events sent hrun e he with ⟨ev, hmem, hpe⟩
  rcases parse_event_ok_some fromStr now inst ev e hpe with ⟨hname, j, hj, hpc, _⟩
  rcases (parse_commit_ok_iff j e.event).mp hpc with ⟨b, r, p, hb, hr, hp, hev⟩
  exact ⟨ev, hmem, hpe, hname, j, ⟨b, r, p⟩, hj, hev, hb, hr, hp⟩

/-- C2 witness: the single event sent by a concrete successful
iteration is traced back to its well-formed `committed` raw event. -/
theorem channel_events_decode_succeeded_witness :
    ∃ ev ∈ [(⟨"committed", 10, "c1"⟩ : DebugInterfaceEvent)],
      parse_event (fun _ => some (Json.obj [("block_id", Json.str "a"),
          ("round", Json.num 1), ("parent_id", Json.str "z")]))
        ⟨7⟩ ⟨"10.0.0.1", "node-1"⟩ ev =
        .ok (some ⟨"node-1", Duration.from_millis 10, ⟨7⟩, .Commit ⟨"a", 1, "z"⟩⟩) ∧
      ev.name = "committed" ∧
      ∃ j c, (fun _ => some (Json.obj [("block_id", Json.str "a"),
          ("round", Json.num 1), ("parent_id", Json.str "z")]) : String → Option Json)
            ev.json = some j ∧
        (ValidatorEvent.event ⟨"node-1", Duration.from_millis 10, ⟨7⟩,
          .Commit ⟨"a", 1, "z"⟩⟩) = Event.Commit c ∧
        (j.get "block_id").bind Json.as_str = some c.commit ∧
        (j.get "round").bind Json.as_u64 = some c.round ∧
        (j.get "parent_id").bind Json.as_str = some c.parent :=
  channel_events_decode_succeeded
    (fun _ => some (Json.obj [("block_id", Json.str "a"), ("round", Json.num 1),
      ("parent_id", Json.str "z")]))
    ⟨7⟩ ⟨"10.0.0.1", "node-1"⟩ (fun _ => true)
    [⟨"committed", 10, "c1"⟩]
    [⟨"node-1", Duration.from_millis 10, ⟨7⟩, .Commit ⟨"a", 1, "z"⟩⟩]
    ⟨"node-1", Duration.from_millis 10, ⟨7⟩, .Commit ⟨"a", 1, "z"⟩⟩
    (by rfl) (by decide)

/-- C6: `spawn_new` is all-or-nothing: it either aborts with the
source's spawn-failure panic, or returns a handle together with exactly
one poller per cluster instance, in cluster order, each wired to a
client connected to that instance's address on port 6191. -/
theorem spawn_new_all_or_nothing (connect : String → Client)
    (spawnOk : String → Bool) (cluster : Cluster) :
    spawn_new connect spawnOk cluster = .error "Failed to spawn log tail thread" ∨
      ∃ tail ps, spawn_new connect spawnOk cluster = .ok (tail, ps) ∧
        ps.map DebugPortLogThread.inst = cluster.instances ∧
        ∀ t ∈ ps, t.client = connect (t.inst.ip ++ ":6191") := by
  rcases spawn_pollers_cases connect spawnOk cluster.instances with h | ⟨ps, hps, hmap, hcl⟩
  · left
    simp [spawn_new, h, exc_error_bind]
  · right
    exact ⟨⟨0⟩, ps, by simp [spawn_new, hps, exc_ok_bind, exc_pure], hmap, hcl⟩

/-- C8: in a failure iteration the transport diagnostic is printed
exactly when the `VERBOSE` environment variable is set (its absence
makes the failure silent), and the poller sends nothing, sleeps one
second and keeps running rather than aborting. -/
theorem transport_failure_verbosity (env : String → Option String)
    (fromStr : String → Option Json) (now : Duration) (inst : Instance)
    (send : ValidatorEvent → Bool) (e : String) :
    ∃ out, poll_iteration env fromStr now inst send (.err e) = .ok out ∧
      (out.printed ≠ [] ↔ (env "VERBOSE").isSome = true) ∧
      out.sent = [] ∧ out.sleep_millis = 1000 := by
  refine ⟨_, rfl, ?_, rfl, rfl⟩
  cases h : (env "VERBOSE").isSome <;> simp [h]

/-- C9: the `LogTail` handle `spawn_new` returns carries a pending
count initialized to zero; no code path in this module writes to it. -/
theorem pending_messages_starts_zero (connect : String → Client)
    (spawnOk : String → Bool) (cluster : Cluster) (tail : LogTail)
    (ps : List DebugPortLogThread)
    (h : spawn_new connect spawnOk cluster = .ok (tail, ps)) :
    tail.pending_messages = 0 := by
  cases hs : spawn_pollers connect spawnOk cluster.instances with
  | error m =>
    rw [spawn_new, hs] at h
    cases h
  | ok l =>
    rw [spawn_new, hs] at h
    simp only [exc_ok_bind, exc_pure, Except.ok.injEq, Prod.mk.injEq] at h
    rw [← h.1]

/-- C9 witness: a concrete one-node spawn returns the zero counter. -/
theorem pending_messages_starts_zero_witness :
    spawn_new (fun a => ⟨a⟩) (fun _ => true) ⟨[⟨"10.0.0.1", "node-1"⟩]⟩ =
        .ok (⟨0⟩, [⟨⟨"10.0.0.1", "node-1"⟩, ⟨"10.0.0.1:6191"⟩⟩]) ∧
      (⟨0⟩ : LogTail).pending_messages = 0 :=
  ⟨by rfl,
    pending_messages_starts_zero (fun a => ⟨a⟩) (fun _ => true)
      ⟨[⟨"10.0.0.1", "node-1"⟩]⟩ ⟨0⟩ [⟨⟨"10.0.0.1", "node-1"⟩, ⟨"10.0.0.1:6191"⟩⟩]
      (by rfl)⟩

/-- C10: the decoder casts the raw `i64` timestamp to `u64` before
interpreting it as milliseconds, so a negative reported timestamp is not
rejected: it wraps modulo `2 ^ 64` into a huge millisecond count of at
least `2 ^ 63`. -/
theorem negative_timestamp_wraps (fromStr : String → Option Json)
    (now : Duration) (inst : Instance) (ev : DebugInterfaceEvent) (j : Json)
    (b : String) (r : Nat) (p : String)
    (hname : ev.name = "committed") (hj : fromStr ev.json = some j)
    (hb : (j.get "block_id").bind Json.as_str = some b)
    (hr : (j.get "round").bind Json.as_u64 = some r)
    (hp : (j.get "parent_id").bind Json.as_str = some p)
    (hneg : ev.timestamp < 0) (hlo : -(2 ^ 63) ≤ ev.timestamp) :
    parse_event fromStr now inst ev =
      .ok (some { validator := inst.short_hash
                , timestamp := Duration.from_millis (2 ^ 64 + ev.timestamp).toNat
                , received_timestamp := now
                , event := Event.Commit ⟨b, r, p⟩ }) ∧
      2 ^ 63 ≤ (2 ^ 64 + ev.timestamp).toNat := by
  have h63 : ((2 : Int) ^ 63) = 9223372036854775808 := by norm_num
  have h64 : ((2 : Int) ^ 64) = 18446744073709551616 := by norm_num
  rw [h63] at hlo
  constructor
  · rw [parse_event_committed fromStr now inst ev j hname hj,
      parse_commit_of_fields j b r p hb hr hp]
    have hmod : ev.timestamp % 18446744073709551616 =
        18446744073709551616 + ev.timestamp := by omega
    simp [mk_envelope, hmod, h64]
  · rw [h64]
    have h63n : ((2 : Nat) ^ 63) = 9223372036854775808 := by norm_num
    rw [h63n]
    omega

/-- C10 witness: a commit event reported at timestamp `-5` decodes to a
duration of `2 ^ 64 - 5` milliseconds. -/
theorem negative_timestamp_wraps_witness :
    parse_event
        (fun _ => some (Json.obj [("block_id", Json.str "abc"), ("round", Json.num 5),
          ("parent_id", Json.str "xyz")]))
        ⟨7⟩ ⟨"10.0.0.1", "node-1"⟩ ⟨"committed", -5, "payload"⟩ =
        .ok (some { validator := "node-1"
                  , timestamp := Duration.from_millis ((2 : Int) ^ 64 + (-5)).toNat
                  , received_timestamp := ⟨7⟩
                  , event := Event.Commit ⟨"abc", 5, "xyz"⟩ }) ∧
      2 ^ 63 ≤ ((2 : Int) ^ 64 + (-5)).toNat :=
  negative_timestamp_wraps
    (fun _ => some (Json.obj [("block_id", Json.str "abc"), ("round", Json.num 5),
      ("parent_id", Json.str "xyz")]))
    ⟨7⟩ ⟨"10.0.0.1", "node-1"⟩ ⟨"committed", -5, "payload"⟩
    (Json.obj [("block_id", Json.str "abc"), ("round", Json.num 5),
      ("parent_id", Json.str "xyz")])
    "abc" 5 "xyz" rfl rfl (by decide) (by decide) (by decide) (by decide) (by decide)
